import Mathlib

/-!
# Verification of the Putnam boardingpass ETL pipeline

A shallow embedding of `src/etl_script.py` (with the per-dimension
aggregation of §4.3 of the spec modelled from the spec, since the source's
aggregation is an incomplete `for` statement at line 198), together with
theorems settling the frozen claims about the pipeline.

A pandas `DataFrame` is modelled as a list of column names plus a list of
rows, each row a list of cells; a cell is null (`NaN`/`NaT`), a string, a
number (modelled as `ℚ`), or a datetime (modelled as an integer day
number, since every comparison and grouping in the source is at day
granularity after `normalize()`).  The library parsing routines
`pd.to_datetime` / `pd.to_numeric` applied to scalars are parameters of
the model (`Parsers`): the claims hold for every choice of parser.
-/

namespace PutnamETL

/-- One cell of a DataFrame: missing (`NaN`/`NaT`), text, numeric, or datetime. -/
inductive Cell where
  | null
  | str (s : String)
  | num (q : ℚ)
  | date (d : ℤ)
deriving DecidableEq

/-- A DataFrame: column names plus rows of cells (row `k`, column `i` is
`(rows.get? k).get? i`; well-formed frames have every row of length `cols.length`). -/
structure Table where
  cols : List String
  rows : List (List Cell)
deriving DecidableEq

/-- Scalar parsing routines of the pandas library, parameters of the model:
`parseDate` is `pd.to_datetime` on a string (`none` = unparseable, coerced to
`NaT`), `parseNum` is `pd.to_numeric` on a string (`none` = coerced to `NaN`),
`dateOfNum` is `pd.to_datetime` on a number. -/
structure Parsers where
  parseDate : String → Option ℤ
  parseNum : String → Option ℚ
  dateOfNum : ℚ → Option ℤ

/-! ## String helpers (ASCII case folding, trimming, substring) -/

/-- Lower-case a string characterwise (Python `str.lower()` on the ASCII
range used by the source's literals). -/
def strLower (s : String) : String := ⟨s.data.map Char.toLower⟩

/-- Drop leading whitespace characters. -/
def dropWS (l : List Char) : List Char := l.dropWhile (fun c => c.isWhitespace)

/-- Strip surrounding whitespace (Python `str.strip()`). -/
def strTrim (s : String) : String := ⟨((dropWS s.data).reverse.dropWhile (fun c => c.isWhitespace)).reverse⟩

/-- Does `l` start with `p`? -/
def charsStartWith : List Char → List Char → Bool
  | [], _ => true
  | _ :: _, [] => false
  | c :: cs, d :: ds => c = d && charsStartWith cs ds

/-- Does `l` contain `p` as a contiguous run? -/
def charsContain (p : List Char) : List Char → Bool
  | [] => p.isEmpty
  | c :: cs => charsStartWith p (c :: cs) || charsContain p cs

/-- Case-insensitive substring test: `series.str.contains(pat, case=False)`
on a string cell. -/
def containsCI (pat s : String) : Bool := charsContain (strLower pat).data (strLower s).data

/-! ## Generic table access -/

/-- Index of the first column named `c` (pandas label lookup). -/
def colIdx : List String → String → Option Nat
  | [], _ => none
  | c' :: cs, c => if c' = c then some 0 else (colIdx cs c).map (· + 1)

/-- The cell of row `r` in the column named `c`. -/
def getCell (cols : List String) (r : List Cell) (c : String) : Option Cell :=
  (colIdx cols c).bind fun i => r.get? i

/-- The cells of column `i`, one per row (a full column of a well-formed frame). -/
def colAt (rows : List (List Cell)) (i : Nat) : List Cell :=
  rows.map fun r => ((r.get? i).getD Cell.null)

/-- The cells of the column named `c`, if present. -/
def colCells (t : Table) (c : String) : Option (List Cell) :=
  (colIdx t.cols c).map fun i => colAt t.rows i

/-! ## Transform (`transform_data`, `src/etl_script.py` lines 43-119) -/

/-- The three date columns normalized by Transform (line 79). -/
def date_cols : List String := ["Request Date", "Estimated Funding Date", "Report As of Date"]

/-- The categorical text columns trimmed by Transform (lines 108-109). -/
def text_cols : List String :=
  ["Request Status", "Status Detail", "Advisor Firm Name", "Recordkeeper Name", "NSCC Firm Name"]

/-- The row filter `df['Fund Name'].str.contains('Putnam', case=False, na=False)`
(line 66): keep a row iff its fund-name cell is a string whose lower-case form
contains "putnam"; missing and non-string cells give `False` (`na=False`). -/
def isPutnamCell : Option Cell → Bool
  | some (Cell.str s) => containsCI "Putnam" s
  | _ => false

/-- The rows surviving the fund-family filter (line 66). -/
def keptRows (df : Table) : List (List Cell) :=
  df.rows.filter fun r => isPutnamCell (getCell df.cols r "Fund Name")

/-- Model of `pd.to_datetime(cell, errors='coerce')` (line 83): dates pass through,
strings and numbers are parsed best-effort, anything unparseable becomes `NaT`. -/
def toDatetimeCell (ps : Parsers) : Cell → Cell
  | Cell.null => Cell.null
  | Cell.date d => Cell.date d
  | Cell.str s => match ps.parseDate s with
    | some d => Cell.date d
    | none => Cell.null
  | Cell.num q => match ps.dateOfNum q with
    | some d => Cell.date d
    | none => Cell.null

/-- Model of `pd.to_numeric(cell, errors='coerce')` (line 88): numbers pass through,
strings are parsed best-effort, anything else becomes `NaN`. -/
def toNumericCell (ps : Parsers) : Cell → Cell
  | Cell.null => Cell.null
  | Cell.num q => Cell.num q
  | Cell.str s => match ps.parseNum s with
    | some q => Cell.num q
    | none => Cell.null
  | Cell.date _ => Cell.null

/-- The funding-amount cleaning `pd.to_numeric(...).fillna(0)` (line 88). -/
def amountCell (ps : Parsers) (c : Cell) : Cell :=
  match toNumericCell ps c with
  | Cell.null => Cell.num 0
  | c' => c'

/-- Python `str(cell)` as applied by `.astype(str)` (lines 93, 113):
a missing value renders as `"nan"`. -/
def cellAstype : Cell → String
  | Cell.null => "nan"
  | Cell.str s => s
  | Cell.num q => toString q
  | Cell.date d => toString d

/-- The truthy spellings normalized to `"Yes"` (line 95). -/
def yesSet : List String := ["yes", "y", "true", "1"]

/-- The falsy spellings normalized to `"No"` (line 95). -/
def noSet : List String := ["no", "n", "false", "0"]

/-- The boolean-like normalization of lines 93-96 applied to the already
`str`-converted value: strip, then map by the lower-case form, passing
unrecognized values through (stripped). -/
def normalizeMapping (s : String) : String :=
  let t := strTrim s
  if yesSet.contains (strLower t) then "Yes"
  else if noSet.contains (strLower t) then "No"
  else t

/-- The full per-cell treatment of the `Mapping from Mutual Fund?` column
(lines 91-96): `astype(str).str.strip()` then the `Yes`/`No` lambda. -/
def mappingCell (c : Cell) : Cell := Cell.str (normalizeMapping (cellAstype c))

/-- The first per-cell pass of Transform, by column name: date columns are
datetime-coerced (lines 80-83), the funding amount is numeric-coerced and
zero-filled (lines 86-88), the mapping flag is normalized (lines 91-96); the
five names are pairwise distinct, so the three sequential passes of the
source commute into one. Applying it through `List.zipWith` with the column
list realises the source's `if col in df_ac.columns` guards. -/
def stage1Fn (ps : Parsers) (c : String) : Cell → Cell :=
  if date_cols.contains c then toDatetimeCell ps
  else if c = "Estimated Funding Amount" then amountCell ps
  else if c = "Mapping from Mutual Fund?" then mappingCell
  else id

/-- pandas column dtypes as far as the fillna loop of lines 99-105 inspects
them: a column the date pass converted (or holding only datetimes) is
`datetime64`; a column holding only numbers and nulls is numeric
(`float64`/`int64`); anything else is `object`. -/
inductive Dtype where
  | numeric
  | datetime
  | object
deriving DecidableEq

/-- Is this cell admissible in a numeric (`float64`/`int64`) column? -/
def isNumCell : Cell → Bool
  | Cell.null => true
  | Cell.num _ => true
  | _ => false

/-- Is this cell admissible in a `datetime64` column? -/
def isDateCell : Cell → Bool
  | Cell.null => true
  | Cell.date _ => true
  | _ => false

/-- The dtype of a column: `conv` records that the column is one of
`date_cols` (so `pd.to_datetime` gave it dtype `datetime64` regardless of
contents); otherwise the dtype follows the cells. -/
def colDtype (conv : Bool) (cells : List Cell) : Dtype :=
  if conv then Dtype.datetime
  else if cells.all isNumCell then Dtype.numeric
  else if cells.all isDateCell then Dtype.datetime
  else Dtype.object

/-- The dtype of every column of a frame, in column order. -/
def tableDtypes (cols : List String) (rows : List (List Cell)) : List Dtype :=
  cols.enum.map fun p => colDtype (date_cols.contains p.2) (colAt rows p.1)

/-- The missing-value fill of lines 99-105: numeric nulls become `0`, object
nulls become `""`, datetime columns are left alone (their dtype is neither
`float64`/`int64` nor `object`, so the loop skips them and `NaT` survives). -/
def fillCell (d : Dtype) : Cell → Cell
  | Cell.null =>
    match d with
    | Dtype.numeric => Cell.num 0
    | Dtype.object => Cell.str ""
    | Dtype.datetime => Cell.null
  | c => c

/-- The text standardization of lines 108-113: the five categorical columns
get `astype(str).str.strip()`; other columns are untouched. -/
def textFn (c : String) (x : Cell) : Cell :=
  if text_cols.contains c then Cell.str (strTrim (cellAstype x)) else x

/-- Transform raises on this structural problem: `df['Fund Name']` (line 66)
is a `KeyError` when the fund-name column is absent, caught and re-raised by
the handler of lines 117-119. -/
inductive TransformError where
  | fundNameKeyError
deriving DecidableEq

/-- The filtered rows after the first per-cell pass (dates, amount, mapping). -/
def stage1Rows (ps : Parsers) (df : Table) : List (List Cell) :=
  (keptRows df).map fun r => List.zipWith (stage1Fn ps) df.cols r

/-- The column dtypes inspected by the fillna loop of lines 99-105: those of
the frame after the date/amount/mapping passes. -/
def transDts (ps : Parsers) (df : Table) : List Dtype :=
  tableDtypes df.cols (stage1Rows ps df)

/-- The complete per-row cell treatment of Transform on a kept row: the
date/amount/mapping pass, then the dtype-directed null fill, then the text
trim — each pass running columnwise over the columns present. -/
def transRow (ps : Parsers) (df : Table) (r : List Cell) : List Cell :=
  List.zipWith textFn df.cols
    (List.zipWith fillCell (transDts ps df) (List.zipWith (stage1Fn ps) df.cols r))

/-- Transform, `transform_data` (lines 43-119): filter to the fund family, return the
empty frame `pd.DataFrame()` if nothing matches (lines 74-76), otherwise run
the date / amount / mapping per-cell pass, the dtype-directed null fill, and
the text trim (the three row passes of the source are fused into the single
per-row map `transRow`).  Missing columns never fail (each pass reaches only
the columns actually present); only a missing fund-name column raises. -/
def transform_data (ps : Parsers) (df : Table) : Except TransformError Table :=
  match colIdx df.cols "Fund Name" with
  | none => Except.error TransformError.fundNameKeyError
  | some _ =>
    let kept := keptRows df
    if kept.length = 0 then Except.ok ⟨[], []⟩
    else Except.ok ⟨df.cols, kept.map (transRow ps df)⟩

/-! ## Metrics (`calculate_metrics`, lines 121-202) -/

/-- Failures of the metric stage: a `KeyError` from indexing a missing
column, or the `SyntaxError`/incompleteness of the bodyless `for` statement
at line 198 (the per-dimension aggregation was never written, so the
function cannot run to completion). -/
inductive CalcError where
  | keyError (c : String)
  | incompleteDimensionLoop
deriving DecidableEq

/-- Column lookup that raises (`KeyError`) when the label is absent. -/
def need {α : Type} (o : Option α) (e : CalcError) : Except CalcError α :=
  match o with
  | some a => Except.ok a
  | none => Except.error e

/-- Distinct elements in order of first occurrence (`seen` accumulates the
values already emitted). -/
def dedupFirst {α : Type} [DecidableEq α] (seen : List α) : List α → List α
  | [] => []
  | x :: xs => if x ∈ seen then dedupFirst seen xs else x :: dedupFirst (x :: seen) xs

/-- The non-null cells of a column (`value_counts` drops `NaN` by default). -/
def nonNull (cells : List Cell) : List Cell := cells.filter fun c => c ≠ Cell.null

/-- Model of `series.value_counts().to_dict()`: each distinct non-null value with its
multiplicity (dict order is irrelevant to every claim; first occurrence is used). -/
def valueCounts (cells : List Cell) : List (Cell × Nat) :=
  (dedupFirst [] (nonNull cells)).map fun v => (v, (nonNull cells).count v)

/-- Python 3 `round` at a tie: round-half-to-even. -/
def roundHalfEven (x : ℚ) : ℤ :=
  let f := Rat.floor x
  let r := x - f
  if r < 1/2 then f
  else if 1/2 < r then f + 1
  else if f % 2 = 0 then f else f + 1

/-- Python `round(q, 1)` (over exact rationals; the source computes in
binary floating point, idealized here). -/
def pyRound1 (q : ℚ) : ℚ := (roundHalfEven (10 * q) : ℚ) / 10

/-- Model of `series.value_counts(normalize=True) * 100`, rounded to one decimal:
each value's share of the non-null total. -/
def valuePercentages (cells : List Cell) : List (Cell × ℚ) :=
  (valueCounts cells).map fun p =>
    (p.1, pyRound1 ((p.2 : ℚ) / ((nonNull cells).length : ℚ) * 100))

/-- The completion test of line 149:
`df['Status Detail'].str.contains('Ready to Trade', case=False, na=False)`. -/
def readyCell : Cell → Bool
  | Cell.str s => containsCI "Ready to Trade" s
  | _ => false

/-- The future-funding row filter of line 159: non-null funding date on or
after `today` (the invocation instant normalized to midnight). -/
def isFutureRow (today : ℤ) (cols : List String) (r : List Cell) : Bool :=
  match getCell cols r "Estimated Funding Date" with
  | some (Cell.date d) => today ≤ d
  | _ => false

/-- The 30-day-window refinement of line 166: funding date before `today + 30`. -/
def isNext30Row (today : ℤ) (cols : List String) (r : List Cell) : Bool :=
  match getCell cols r "Estimated Funding Date" with
  | some (Cell.date d) => d < today + 30
  | _ => false

/-- Numeric value of a cell as summed by `series.sum()`. -/
def cellRat : Cell → ℚ
  | Cell.num q => q
  | _ => 0

/-- A row's contribution to an `Estimated Funding Amount` sum. -/
def amountOf (cols : List String) (r : List Cell) : ℚ :=
  cellRat ((getCell cols r "Estimated Funding Amount").getD Cell.null)

/-- Model of `rows['Estimated Funding Amount'].sum()`. -/
def sumAmounts (cols : List String) (rows : List (List Cell)) : ℚ :=
  (rows.map (amountOf cols)).sum

/-- The funding day of a row, when its funding cell holds a date. -/
def fundingDay (cols : List String) (r : List Cell) : Option ℤ :=
  match getCell cols r "Estimated Funding Date" with
  | some (Cell.date d) => some d
  | _ => none

/-- Insert at the first position whose element may follow `x` (stable). -/
def insertBy {α : Type} (le : α → α → Bool) (x : α) : List α → List α
  | [] => [x]
  | y :: ys => if le x y then x :: y :: ys else y :: insertBy le x ys

/-- Stable insertion sort by the boolean order `le`. -/
def sortBy {α : Type} (le : α → α → Bool) (l : List α) : List α :=
  l.foldr (insertBy le) []

/-- Model of `future_funding.groupby(....dt.date).size()` (line 163): per calendar
day, the number of rows funding that day, days ascending. -/
def groupByDay (cols : List String) (rows : List (List Cell)) : List (ℤ × Nat) :=
  let days := rows.filterMap (fundingDay cols)
  (sortBy (fun a b => decide (a ≤ b)) (dedupFirst [] days)).map fun d => (d, days.count d)

/-- The `upcoming_funding` sub-bundle (lines 168-182). -/
structure UpcomingFunding where
  total_count : Nat
  next_30days_count : Nat
  total_amount : ℚ
  next_30days_amount : ℚ
  by_date : List (ℤ × Nat)
deriving DecidableEq

/-- The all-zero bundle emitted when no future funding rows exist (lines 176-182). -/
def zeroUpcoming : UpcomingFunding := ⟨0, 0, 0, 0, []⟩

/-- Lines 153-182: absent when the funding-date column is absent; all-zero
when no row has a non-null funding date on or after `today`; otherwise counts,
amount sums and the per-day grouping over the future rows (indexing the
amount column raises `KeyError` if it is absent on that path, line 171). -/
def upcomingFunding (today : ℤ) (t : Table) : Except CalcError (Option UpcomingFunding) :=
  match colIdx t.cols "Estimated Funding Date" with
  | none => Except.ok none
  | some _ =>
    let fut := t.rows.filter (isFutureRow today t.cols)
    if fut.isEmpty then Except.ok (some zeroUpcoming)
    else match colIdx t.cols "Estimated Funding Amount" with
      | none => Except.error (CalcError.keyError "Estimated Funding Amount")
      | some _ =>
        let in30 := fut.filter (isNext30Row today t.cols)
        Except.ok (some ⟨fut.length, in30.length, sumAmounts t.cols fut,
          sumAmounts t.cols in30, groupByDay t.cols fut⟩)

/-- The metrics dict as populated by lines 134-192, i.e. every entry the
source assigns before the incomplete per-dimension aggregation. -/
structure Metrics where
  total_plans : Nat
  total_requests : Nat
  status_counts : List (Cell × Nat)
  status_percentages : List (Cell × ℚ)
  status_detail_counts : List (Cell × Nat)
  status_detail_percentages : List (Cell × ℚ)
  completed_count : Nat
  completion_rate : ℚ
  upcoming_funding : Option UpcomingFunding
  mapping_from_mutual_fund : Option (List (Cell × Nat) × List (Cell × ℚ))
deriving DecidableEq

/-- The metric computations of lines 134-192, in source order: basic counts,
status and status-detail distributions, completion, upcoming funding
(guarded by column presence), mapping-from-mutual-fund distribution (guarded
by column presence).  `completion_rate` is
`round(len(completed) / len(df) * 100, 1) if len(df) > 0 else 0` (line 151). -/
def metricsUpToDimensions (today : ℤ) (t : Table) : Except CalcError Metrics := do
  let planCells ← need (colCells t "Plan Name") (CalcError.keyError "Plan Name")
  let statusCells ← need (colCells t "Request Status") (CalcError.keyError "Request Status")
  let detailCells ← need (colCells t "Status Detail") (CalcError.keyError "Status Detail")
  let upcoming ← upcomingFunding today t
  Except.ok ⟨(dedupFirst [] planCells).length, t.rows.length,
    valueCounts statusCells, valuePercentages statusCells,
    valueCounts detailCells, valuePercentages detailCells,
    detailCells.countP readyCell,
    (if t.rows.length = 0 then 0
     else pyRound1 ((detailCells.countP readyCell : ℚ) / (t.rows.length : ℚ) * 100)),
    upcoming,
    (colCells t "Mapping from Mutual Fund?").map fun cells =>
      (valueCounts cells, valuePercentages cells)⟩

/-- Calculate, `calculate_metrics` (lines 121-202): the source populates the metrics
dict up to line 196 and then reaches the bodyless `for` statement of
line 198, so the function always terminates in the error handler of
lines 200-202 and never returns a metrics bundle. -/
def calculate_metrics (today : ℤ) (t : Table) : Except CalcError Metrics := do
  let _m ← metricsUpToDimensions today t
  Except.error CalcError.incompleteDimensionLoop

/-! ## Load (`load_data`, lines 204-252) and the pipeline (lines 254-289) -/

/-- The content written to an output file: the cleaned table as CSV or the
metrics bundle as JSON (byte-level serialization is not modelled; equal
values serialize equally). -/
inductive FileContent where
  | csv (t : Table)
  | json (m : Metrics)
deriving DecidableEq

/-- The four output locations returned by `load_data` (lines 243-248). -/
structure LoadPaths where
  processed_data_path : String
  metrics_path : String
  latest_data_path : String
  latest_metrics_path : String
deriving DecidableEq

/-- Load, `load_data` (lines 204-252): write the table and metrics under a
timestamped name and again under the fixed `latest` names, returning the
four paths together with the performed writes.  `timestamp` stands for
`datetime.now().strftime('%Y%m%d_%H%M%S')` (line 220). -/
def load_data (timestamp : String) (df : Table) (metrics : Metrics) (output_dir : String) :
    LoadPaths × List (String × FileContent) :=
  let csvPath := output_dir ++ "/putnam_data_" ++ timestamp ++ ".csv"
  let metricsPath := output_dir ++ "/putnam_metrics_" ++ timestamp ++ ".json"
  let latestCsvPath := output_dir ++ "/putnam_data_latest.csv"
  let latestMetricsPath := output_dir ++ "/putnam_metrics_latest.json"
  (⟨csvPath, metricsPath, latestCsvPath, latestMetricsPath⟩,
   [(csvPath, FileContent.csv df), (metricsPath, FileContent.json metrics),
    (latestCsvPath, FileContent.csv df), (latestMetricsPath, FileContent.json metrics)])

/-- A pipeline failure: the propagated error of the failing stage. -/
inductive EtlError where
  | transformFailed (e : TransformError)
  | calcFailed (e : CalcError)
deriving DecidableEq

/-- The orchestrator `run_etl_pipeline` (lines 254-289) applied to the extracted raw table
(extraction itself is file input, abstracted to the table it yields):
Transform, short-circuit with `None` and no writes when nothing remains
(lines 274-276), otherwise Calculate then Load.  The result carries the
returned value and the list of file writes performed. -/
def run_etl_pipeline (ps : Parsers) (today : ℤ) (timestamp output_dir : String) (raw : Table) :
    Except EtlError (Option LoadPaths × List (String × FileContent)) :=
  match transform_data ps raw with
  | Except.error e => Except.error (EtlError.transformFailed e)
  | Except.ok t =>
    if t.rows.length = 0 then Except.ok (none, [])
    else match calculate_metrics today t with
      | Except.error e => Except.error (EtlError.calcFailed e)
      | Except.ok m => Except.ok (some (load_data timestamp t m output_dir).1,
          (load_data timestamp t m output_dir).2)

/-! ## Per-dimension breakdown, modelled from the spec

The source's aggregation (line 198) is a `for` statement with no body, so
the computation below is not a translation of `src/etl_script.py`. -/

/-- The three breakdown dimensions (line 195). -/
def dimensions : List String := ["Advisor Firm Name", "Recordkeeper Name", "NSCC Firm Name"]

/-- Number of rows carrying value `v` in the column named `dim`. -/
def dimValueTotal (t : Table) (dim : String) (v : Cell) : Nat :=
  t.rows.countP fun r => getCell t.cols r dim = some v

/-- Number of rows carrying value `v` in column `dim` and status `s`. -/
def dimStatusCount (t : Table) (dim : String) (v s : Cell) : Nat :=
  t.rows.countP fun r => getCell t.cols r dim = some v ∧ getCell t.cols r "Request Status" = some s

/-- Modelled from the spec: the intended per-dimension aggregation of §4.3
(missing from `src/etl_script.py`, whose `for` at line 198 has no body) — "a
nested mapping from dimension-value → status-value → count, plus a total per
dimension-value, restricted to the top 10 dimension-values by total row
count, ties broken by first-encountered order."  Dimension values in first
encountered order, stably sorted by descending total, first ten kept, each
paired with its per-status counts and its total. -/
def statusByDimension (t : Table) (dim : String) : List (Cell × (List (Cell × Nat) × Nat)) :=
  let dimVals := dedupFirst [] (nonNull ((colCells t dim).getD []))
  let statuses := dedupFirst [] (nonNull ((colCells t "Request Status").getD []))
  let totals := dimVals.map fun v => (v, dimValueTotal t dim v)
  let top := (sortBy (fun a b => decide (b.2 ≤ a.2)) totals).take 10
  top.map fun p => (p.1, (statuses.map fun s => (s, dimStatusCount t dim p.1 s), p.2))

/-- Modelled from the spec: the `by_dimension` entry maps each of the three
dimensions to its breakdown. -/
def byDimension (t : Table) : List (String × List (Cell × (List (Cell × Nat) × Nat))) :=
  dimensions.map fun d => (d, statusByDimension t d)

/-! ## Toolkit lemmas -/

theorem colIdx_get? {cols : List String} {c : String} {i : Nat}
    (h : colIdx cols c = some i) : cols.get? i = some c := by
  induction cols generalizing i with
  | nil => simp [colIdx] at h
  | cons c' cs ih =>
    simp only [colIdx] at h
    by_cases hc : c' = c
    · simp only [hc, if_pos rfl, Option.some.injEq] at h
      subst hc
      cases h
      rfl
    · rw [if_neg hc] at h
      cases hj : colIdx cs c with
      | none => rw [hj] at h; cases h
      | some j =>
        rw [hj] at h
        cases h
        simpa using ih hj

theorem colIdx_isSome_of_mem {cols : List String} {c : String} (h : c ∈ cols) :
    (colIdx cols c).isSome := by
  induction cols with
  | nil => cases h
  | cons c' cs ih =>
    simp only [colIdx]
    by_cases hc : c' = c
    · simp [hc]
    · rw [if_neg hc]
      rcases List.mem_cons.mp h with h' | h'
      · exact absurd h'.symm hc
      · cases hj : colIdx cs c with
        | none => rw [hj] at ih; exact absurd (ih h') (by simp)
        | some j => simp

theorem getCell_of_colIdx {cols : List String} {r : List Cell} {c : String} {i : Nat}
    (h : colIdx cols c = some i) : getCell cols r c = r.get? i := by
  simp [getCell, h]

theorem getCell_eq_some {cols : List String} {r : List Cell} {c : String} {x : Cell}
    (h : getCell cols r c = some x) :
    ∃ i, colIdx cols c = some i ∧ r.get? i = some x := by
  unfold getCell at h
  cases hi : colIdx cols c with
  | none => rw [hi] at h; cases h
  | some i => rw [hi] at h; exact ⟨i, rfl, h⟩

theorem get?_zipWith_left {α β γ : Type} (f : α → β → γ) {l₁ : List α} {l₂ : List β}
    {i : Nat} {a : α} (h : l₁.get? i = some a) :
    (List.zipWith f l₁ l₂).get? i = (l₂.get? i).map (f a) := by
  rw [List.get?_zipWith', h]
  cases l₂.get? i <;> rfl

theorem transDts_get?_of_col {ps : Parsers} {df : Table} {c : String} {i : Nat}
    (hc : df.cols.get? i = some c) :
    (transDts ps df).get? i
      = some (colDtype (date_cols.contains c) (colAt (stage1Rows ps df) i)) := by
  have hc' : df.cols[i]? = some c := by rw [← List.get?_eq_getElem?]; exact hc
  simp [transDts, tableDtypes, List.get?_map, List.get?_enum]
  exact ⟨c, hc', rfl⟩

theorem transDts_get? {ps : Parsers} {df : Table} {c : String} {i : Nat}
    (h : colIdx df.cols c = some i) :
    (transDts ps df).get? i
      = some (colDtype (date_cols.contains c) (colAt (stage1Rows ps df) i)) :=
  transDts_get?_of_col (colIdx_get? h)

theorem transRow_get? {ps : Parsers} {df : Table} {r : List Cell} {c : String}
    {i : Nat} {d : Dtype} (hc : df.cols.get? i = some c)
    (hd : (transDts ps df).get? i = some d) :
    (transRow ps df r).get? i
      = (r.get? i).map fun x => textFn c (fillCell d (stage1Fn ps c x)) := by
  rw [transRow, get?_zipWith_left textFn hc, get?_zipWith_left fillCell hd,
    get?_zipWith_left (stage1Fn ps) hc]
  cases r.get? i <;> rfl

theorem getCell_transRow {ps : Parsers} {df : Table} {r : List Cell} {c : String}
    {i : Nat} {d : Dtype} (hi : colIdx df.cols c = some i)
    (hd : (transDts ps df).get? i = some d) :
    getCell df.cols (transRow ps df r) c
      = (r.get? i).map fun x => textFn c (fillCell d (stage1Fn ps c x)) := by
  rw [getCell_of_colIdx hi, transRow_get? (colIdx_get? hi) hd]

theorem transform_ok {ps : Parsers} {df t' : Table}
    (h : transform_data ps df = Except.ok t') :
    ((keptRows df).length = 0 ∧ t' = ⟨[], []⟩) ∨
      ((keptRows df).length ≠ 0 ∧ t' = ⟨df.cols, (keptRows df).map (transRow ps df)⟩) := by
  unfold transform_data at h
  cases hF : colIdx df.cols "Fund Name" with
  | none => rw [hF] at h; cases h
  | some i =>
    rw [hF] at h
    by_cases hk : (keptRows df).length = 0
    · rw [if_pos hk] at h
      cases h
      exact Or.inl ⟨hk, rfl⟩
    · rw [if_neg hk] at h
      cases h
      exact Or.inr ⟨hk, rfl⟩

theorem transform_error {ps : Parsers} {df : Table} {e : TransformError}
    (h : transform_data ps df = Except.error e) :
    colIdx df.cols "Fund Name" = none := by
  unfold transform_data at h
  cases hF : colIdx df.cols "Fund Name" with
  | none => rfl
  | some i =>
    rw [hF] at h
    by_cases hk : (keptRows df).length = 0
    · rw [if_pos hk] at h; cases h
    · rw [if_neg hk] at h; cases h

theorem mem_keptRows {df : Table} {r : List Cell} (h : r ∈ keptRows df) :
    ∃ s, getCell df.cols r "Fund Name" = some (Cell.str s) ∧
      containsCI "Putnam" s = true := by
  have hp := (List.mem_filter.mp h).2
  cases hcell : getCell df.cols r "Fund Name" with
  | none => rw [hcell] at hp; cases hp
  | some cl =>
    cases cl with
    | null => rw [hcell] at hp; cases hp
    | str s => exact ⟨s, rfl, by rw [hcell] at hp; exact hp⟩
    | num q => rw [hcell] at hp; cases hp
    | date d => rw [hcell] at hp; cases hp

theorem fillCell_not_null {d : Dtype} {x : Cell} (h : x ≠ Cell.null) :
    fillCell d x = x := by
  cases x with
  | null => exact absurd rfl h
  | str s => rfl
  | num q => rfl
  | date dd => rfl

theorem stage1Fn_fundName (ps : Parsers) (x : Cell) :
    stage1Fn ps "Fund Name" x = x := rfl

theorem textFn_fundName (x : Cell) : textFn "Fund Name" x = x := rfl

/-! ## C3 — the fund-family filter invariant -/

/-- C3: for every raw input table, every row retained by Transform has a
fund-name cell that case-insensitively contains "Putnam", and no row whose
fund-name cell lacks the token (null fund names included) appears in the
cleaned table. -/
theorem fund_filter_invariant (ps : Parsers) (raw t' : Table)
    (h : transform_data ps raw = Except.ok t') :
    ∀ r' ∈ t'.rows, ∃ s, getCell t'.cols r' "Fund Name" = some (Cell.str s) ∧
      containsCI "Putnam" s = true := by
  rcases transform_ok h with ⟨-, ht⟩ | ⟨-, ht⟩
  · rw [ht]; intro r' hr'; cases hr'
  · rw [ht]
    intro r' hr'
    simp only [List.mem_map] at hr'
    obtain ⟨r, hr, rfl⟩ := hr'
    obtain ⟨s, hcell, hput⟩ := mem_keptRows hr
    obtain ⟨i, hi, hri⟩ := getCell_eq_some hcell
    have hd := @transDts_get? ps _ _ _ hi
    rw [getCell_transRow hi hd, hri]
    refine ⟨s, ?_, hput⟩
    simp [stage1Fn_fundName, textFn_fundName, fillCell_not_null]

/-! ## Concrete instances for witnesses -/

/-- A concrete parser bundle (every string unparseable, as with the "N/A"
scenario) for evaluating the model on explicit inputs. -/
def trivialParsers : Parsers := ⟨fun _ => none, fun _ => none, fun _ => none⟩

/-- C3 witness: on a concrete two-row input only the Putnam row survives,
and its fund-name cell contains the token. -/
theorem fund_filter_invariant_witness :
    ∃ s, getCell ["Fund Name"] [Cell.str "Putnam X"] "Fund Name"
        = some (Cell.str s) ∧ containsCI "Putnam" s = true :=
  fund_filter_invariant trivialParsers
    ⟨["Fund Name"], [[Cell.str "Putnam X"], [Cell.str "Other"]]⟩
    ⟨["Fund Name"], [[Cell.str "Putnam X"]]⟩ (by rfl)
    [Cell.str "Putnam X"] (by decide)

/-! ## C9 — missing columns and Transform -/

/-- C9 counterexample: a raw table missing expected columns (here all but
`Plan Name` — in particular `Fund Name`) on which Transform fails rather
than proceeding with the present subset: the row filter of line 66 indexes
`df['Fund Name']` unconditionally. -/
theorem transform_fails_without_fund_name :
    transform_data trivialParsers ⟨["Plan Name"], [[Cell.str "A"]]⟩
      = Except.error TransformError.fundNameKeyError := by rfl

/-- C9 as amended: Transform tolerates missing expected columns other than
the fund-name column — whenever `Fund Name` is present it succeeds, each
cleaning step touching only the columns that exist (the result keeps exactly
the input's columns, or none on the empty short-circuit). -/
theorem transform_tolerates_missing_columns (ps : Parsers) (raw : Table)
    (h : "Fund Name" ∈ raw.cols) :
    ∃ t', transform_data ps raw = Except.ok t' ∧
      (t'.cols = raw.cols ∨ t'.cols = []) := by
  have hs := colIdx_isSome_of_mem h
  cases hF : colIdx raw.cols "Fund Name" with
  | none => rw [hF] at hs; cases hs
  | some i =>
    unfold transform_data
    rw [hF]
    by_cases hk : (keptRows raw).length = 0
    · rw [if_pos hk]; exact ⟨_, rfl, Or.inr rfl⟩
    · rw [if_neg hk]; exact ⟨_, rfl, Or.inl rfl⟩

/-- C9 witness: a concrete table having `Fund Name` but missing the other
ten expected columns is transformed without failure. -/
theorem transform_tolerates_missing_columns_witness :
    ∃ t', transform_data trivialParsers ⟨["Fund Name"], [[Cell.str "Putnam A"]]⟩
        = Except.ok t' ∧
      (t'.cols = ["Fund Name"] ∨ t'.cols = []) :=
  transform_tolerates_missing_columns trivialParsers
    ⟨["Fund Name"], [[Cell.str "Putnam A"]]⟩ (by decide)

/-! ## C8 — the empty-transform short circuit -/

/-- C8: whenever Transform yields an empty table, the pipeline returns the
"no output produced" value (`None`) without an error, performing no writes —
Calculate and Load never run. -/
theorem empty_transform_short_circuit (ps : Parsers) (today : ℤ)
    (timestamp output_dir : String) (raw t' : Table)
    (h : transform_data ps raw = Except.ok t') (he : t'.rows = []) :
    run_etl_pipeline ps today timestamp output_dir raw = Except.ok (none, []) := by
  unfold run_etl_pipeline
  simp only [h, he]
  rfl

/-- C8 witness: a raw table whose only row is not a Putnam row transforms to
the empty frame, and the pipeline returns no-output with no writes. -/
theorem empty_transform_short_circuit_witness :
    run_etl_pipeline trivialParsers 0 "20240101_000000" "output"
        ⟨["Fund Name"], [[Cell.str "Other Fund"]]⟩ = Except.ok (none, []) :=
  empty_transform_short_circuit trivialParsers 0 "20240101_000000" "output"
    ⟨["Fund Name"], [[Cell.str "Other Fund"]]⟩ ⟨[], []⟩ (by rfl) (by rfl)

/-! ## C1 — the incomplete metric stage dooms every non-empty run -/

/-- C1: `calculate_metrics` never returns a metrics bundle (its
per-dimension aggregation is a bodyless `for`), so on every raw input whose
transformed table is non-empty the pipeline fails with no output paths, and
the only pipeline invocations that complete without error are the
empty-result short-circuits. -/
theorem calc_incomplete_pipeline_fails (ps : Parsers) (today : ℤ)
    (timestamp output_dir : String) (raw : Table) :
    (∀ t, (calculate_metrics today t).isOk = false) ∧
    (∀ t', transform_data ps raw = Except.ok t' → t'.rows ≠ [] →
      (run_etl_pipeline ps today timestamp output_dir raw).isOk = false) ∧
    (∀ res, run_etl_pipeline ps today timestamp output_dir raw = Except.ok res →
      res = (none, [])) := by
  have hcalc : ∀ t, (calculate_metrics today t).isOk = false := by
    intro t
    unfold calculate_metrics
    cases h : metricsUpToDimensions today t <;>
      simp [h, Except.isOk, Except.toBool, Bind.bind, Except.bind]
  refine ⟨hcalc, ?_, ?_⟩
  · intro t' h hne
    have hz : ¬ t'.rows.length = 0 := by simpa [List.length_eq_zero] using hne
    unfold run_etl_pipeline
    simp only [h, if_neg hz]
    cases hc : calculate_metrics today t' with
    | error e => simp [Except.isOk, Except.toBool]
    | ok m => have hm := hcalc t'; rw [hc] at hm; cases hm
  · intro res h
    unfold run_etl_pipeline at h
    cases ht : transform_data ps raw with
    | error e => simp only [ht] at h; exact Except.noConfusion h
    | ok t =>
      simp only [ht] at h
      by_cases hz : t.rows.length = 0
      · rw [if_pos hz] at h
        exact (Except.ok.inj h).symm
      · rw [if_neg hz] at h
        cases hc : calculate_metrics today t with
        | error e => simp only [hc] at h; exact Except.noConfusion h
        | ok m => have hm := hcalc t; rw [hc] at hm; cases hm

/-- C1 witness: on a concrete one-Putnam-row input the transformed table is
non-empty and the pipeline fails. -/
theorem calc_incomplete_pipeline_fails_witness :
    (run_etl_pipeline trivialParsers 0 "20240101_000000" "output"
      ⟨["Fund Name"], [[Cell.str "Putnam X"]]⟩).isOk = false :=
  (calc_incomplete_pipeline_fails trivialParsers 0 "20240101_000000" "output"
      ⟨["Fund Name"], [[Cell.str "Putnam X"]]⟩).2.1
    ⟨["Fund Name"], [[Cell.str "Putnam X"]]⟩ (by rfl) (by decide)

/-! ## C10 — determinism of runs and artifacts -/

/-- C10: the pipeline never reaches Load on any input — on a concrete
well-formed input (fixed "now" and timestamp) it fails in `calculate_metrics`
at the incomplete per-dimension loop and writes no artifacts at all, so no
run produces the "latest" artifacts the claim speaks about. -/
theorem pipeline_never_writes_artifacts :
    run_etl_pipeline trivialParsers 0 "20240101_000000" "output"
        ⟨["Fund Name", "Plan Name", "Request Status", "Status Detail"],
         [[Cell.str "Putnam Growth", Cell.str "Plan A", Cell.str "Open",
           Cell.str "Awaiting Signature"]]⟩
      = Except.error (EtlError.calcFailed CalcError.incompleteDimensionLoop) := by rfl

/-- The Load stage itself is deterministic: with the same table, metrics and
output directory, two invocations at different timestamps write the same
contents (so equal "latest" artifacts, and timestamped artifacts differing
only in filename), supporting the intent behind C10. -/
theorem load_data_deterministic (ts₁ ts₂ : String) (df : Table) (m : Metrics)
    (output_dir : String) :
    (load_data ts₁ df m output_dir).1.latest_data_path
        = (load_data ts₂ df m output_dir).1.latest_data_path ∧
    (load_data ts₁ df m output_dir).1.latest_metrics_path
        = (load_data ts₂ df m output_dir).1.latest_metrics_path ∧
    ((load_data ts₁ df m output_dir).2.map Prod.snd)
        = ((load_data ts₂ df m output_dir).2.map Prod.snd) := by
  exact ⟨rfl, rfl, rfl⟩

/-! ## C5 — completion metrics -/

theorem metricsUpTo_ok {today : ℤ} {t : Table} {m : Metrics}
    (h : metricsUpToDimensions today t = Except.ok m) :
    ∃ pc sc dc u,
      colCells t "Plan Name" = some pc ∧
      colCells t "Request Status" = some sc ∧
      colCells t "Status Detail" = some dc ∧
      upcomingFunding today t = Except.ok u ∧
      m = ⟨(dedupFirst [] pc).length, t.rows.length,
        valueCounts sc, valuePercentages sc,
        valueCounts dc, valuePercentages dc,
        dc.countP readyCell,
        (if t.rows.length = 0 then 0
         else pyRound1 ((dc.countP readyCell : ℚ) / (t.rows.length : ℚ) * 100)),
        u,
        (colCells t "Mapping from Mutual Fund?").map fun cells =>
          (valueCounts cells, valuePercentages cells)⟩ := by
  unfold metricsUpToDimensions at h
  cases hp : colCells t "Plan Name" with
  | none => simp [need, hp, Bind.bind, Except.bind] at h
  | some pc =>
  cases hs : colCells t "Request Status" with
  | none => simp [need, hp, hs, Bind.bind, Except.bind] at h
  | some sc =>
  cases hd : colCells t "Status Detail" with
  | none => simp [need, hp, hs, hd, Bind.bind, Except.bind] at h
  | some dc =>
  cases hu : upcomingFunding today t with
  | error e => simp [need, hp, hs, hd, hu, Bind.bind, Except.bind] at h
  | ok u =>
    simp only [need, hp, hs, hd, hu, Bind.bind, Except.bind] at h
    exact ⟨pc, sc, dc, u, rfl, rfl, rfl, rfl, (Except.ok.inj h).symm⟩

theorem colCells_of_empty {t : Table} {c : String} {l : List Cell}
    (h : colCells t c = some l) (he : t.rows = []) : l = [] := by
  unfold colCells at h
  cases hI : colIdx t.cols c with
  | none => rw [hI] at h; cases h
  | some i =>
    rw [hI] at h
    have := Option.some.inj h
    rw [← this, he]
    rfl

/-- The empty cleaned table (header row only, zero data rows) of the C5
scenario. -/
def tblC5 : Table :=
  ⟨["Plan Name", "Request Status", "Status Detail", "Estimated Funding Date",
    "Estimated Funding Amount", "Mapping from Mutual Fund?"], []⟩

/-- The metric values the source computes on `tblC5` before reaching the
incomplete loop. -/
def mC5 : Metrics := ⟨0, 0, [], [], [], [], 0, 0, some zeroUpcoming, some ([], [])⟩

/-- C5 counterexample: on the empty cleaned table `calculate_metrics` does
raise — it reaches the bodyless per-dimension `for` of line 198 and
terminates in the error handler, contrary to the claim's "does not raise"
(no division-by-zero occurs: every rate computed before that point is 0). -/
theorem calculate_metrics_raises_on_empty :
    calculate_metrics 0 tblC5 = Except.error CalcError.incompleteDimensionLoop := by rfl

/-- C5 as amended: among the metric values the source computes (the bundle
populated before the incomplete per-dimension loop), `completed_count` is
the number of rows whose status-detail cell case-insensitively contains
"Ready to Trade", `completion_rate` is `100 · completed / total` rounded to
one decimal (and 0 when the table is empty), and on the empty cleaned table
every percentage and rate is 0 with no division-by-zero — but
`calculate_metrics` itself then raises at the incomplete loop instead of
returning the bundle. -/
theorem completion_metrics_formulas (today : ℤ) (t : Table) (m : Metrics)
    (cells : List Cell)
    (h : metricsUpToDimensions today t = Except.ok m)
    (hcells : colCells t "Status Detail" = some cells) :
    m.completed_count = cells.countP readyCell ∧
    m.completion_rate = (if m.total_requests = 0 then 0
      else pyRound1 (100 * (m.completed_count : ℚ) / (m.total_requests : ℚ))) ∧
    (t.rows = [] →
      m.completion_rate = 0 ∧
      (∀ p ∈ m.status_percentages, p.2 = 0) ∧
      (∀ p ∈ m.status_detail_percentages, p.2 = 0) ∧
      (∀ cp, m.mapping_from_mutual_fund = some cp → ∀ p ∈ cp.2, p.2 = 0)) := by
  obtain ⟨pc, sc, dc, u, hp, hs, hd, hu, hm⟩ := metricsUpTo_ok h
  have hdc : cells = dc := by
    rw [hd] at hcells
    exact (Option.some.inj hcells).symm
  subst hdc
  subst hm
  refine ⟨rfl, ?_, ?_⟩
  · by_cases hz : t.rows.length = 0
    · simp [hz]
    · simp only [hz, if_false, Metrics.completion_rate, Metrics.total_requests,
        Metrics.completed_count]
      congr 1
      ring
  · intro he
    have hsc : sc = [] := colCells_of_empty hs he
    refine ⟨by simp [he], ?_, ?_, ?_⟩
    · rw [hsc]
      intro p hp'
      cases hp'
    · rw [colCells_of_empty hd he]
      intro p hp'
      cases hp'
    · intro cp hcp p hp'
      cases hmc : colCells t "Mapping from Mutual Fund?" with
      | none => rw [hmc] at hcp; cases hcp
      | some mc =>
        rw [hmc] at hcp
        have hmc0 : mc = [] := colCells_of_empty hmc he
        cases Option.some.inj hcp
        rw [hmc0] at hp'
        cases hp'

/-- C5 witness: the amended statement instantiated at the concrete empty
cleaned table, whose computed bundle is `mC5`. -/
theorem completion_metrics_formulas_witness :
    mC5.completed_count = ([] : List Cell).countP readyCell ∧
    mC5.completion_rate = (if mC5.total_requests = 0 then 0
      else pyRound1 (100 * (mC5.completed_count : ℚ) / (mC5.total_requests : ℚ))) ∧
    (tblC5.rows = [] →
      mC5.completion_rate = 0 ∧
      (∀ p ∈ mC5.status_percentages, p.2 = 0) ∧
      (∀ p ∈ mC5.status_detail_percentages, p.2 = 0) ∧
      (∀ cp, mC5.mapping_from_mutual_fund = some cp → ∀ p ∈ cp.2, p.2 = 0)) :=
  completion_metrics_formulas 0 tblC5 mC5 [] (by rfl) (by rfl)

/-! ## C6 — the boolean-like mapping normalization -/

theorem stage1Fn_mapping (ps : Parsers) (x : Cell) :
    stage1Fn ps "Mapping from Mutual Fund?" x = mappingCell x := rfl

theorem textFn_mapping (x : Cell) : textFn "Mapping from Mutual Fund?" x = x := rfl

/-- C6 counterexample: the mapping value `" maybe "` (an "any other value")
is not passed through verbatim — Transform emits the trimmed `"maybe"`. -/
theorem mapping_not_verbatim :
    transform_data trivialParsers
        ⟨["Fund Name", "Mapping from Mutual Fund?"],
         [[Cell.str "Putnam G", Cell.str " maybe "]]⟩
      = Except.ok ⟨["Fund Name", "Mapping from Mutual Fund?"],
         [[Cell.str "Putnam G", Cell.str "maybe"]]⟩ ∧
    Cell.str "maybe" ≠ Cell.str " maybe " :=
  ⟨by rfl, by decide⟩

/-- C6 as amended: Transform trims and case-folds the mapping field's text;
values whose trimmed, case-folded form is in {"yes","y","true","1"} become
exactly "Yes", those in {"no","n","false","0"} become exactly "No", and any
other text value is passed through with only its surrounding whitespace
removed (case preserved, never an error). -/
theorem mapping_normalization (ps : Parsers) (raw t' : Table) (k i : Nat)
    (r : List Cell) (s : String)
    (h : transform_data ps raw = Except.ok t')
    (hk : (keptRows raw).get? k = some r)
    (hi : colIdx raw.cols "Mapping from Mutual Fund?" = some i)
    (hcell : r.get? i = some (Cell.str s)) :
    ∃ r', t'.rows.get? k = some r' ∧
      r'.get? i = some (Cell.str (normalizeMapping s)) ∧
      (strLower (strTrim s) ∈ yesSet → normalizeMapping s = "Yes") ∧
      (strLower (strTrim s) ∈ noSet → strLower (strTrim s) ∉ yesSet →
        normalizeMapping s = "No") ∧
      (strLower (strTrim s) ∉ yesSet → strLower (strTrim s) ∉ noSet →
        normalizeMapping s = strTrim s) := by
  rcases transform_ok h with ⟨hz, -⟩ | ⟨-, ht⟩
  · rw [List.length_eq_zero.mp hz] at hk
    cases hk
  · refine ⟨transRow ps raw r, ?_, ?_, ?_, ?_, ?_⟩
    · rw [ht]
      simp only [List.get?_map, hk, Option.map_some']
    · have hd := @transDts_get? ps _ _ _ hi
      rw [transRow_get? (colIdx_get? hi) hd, hcell]
      simp only [Option.map_some', stage1Fn_mapping]
      rw [mappingCell, cellAstype, fillCell_not_null (by simp), textFn_mapping]
    · intro hy
      simp [normalizeMapping, hy]
    · intro hn hy
      simp [normalizeMapping, hn, hy]
    · intro hy hn
      simp [normalizeMapping, hy, hn]

/-- C6 witness: the spec's scenario value `" YES "` on a concrete row is
normalized to exactly `"Yes"`. -/
theorem mapping_normalization_witness :
    ∃ r', (Table.mk ["Fund Name", "Mapping from Mutual Fund?"]
        [[Cell.str "Putnam G", Cell.str "Yes"]]).rows.get? 0 = some r' ∧
      r'.get? 1 = some (Cell.str (normalizeMapping " YES ")) ∧
      (strLower (strTrim " YES ") ∈ yesSet → normalizeMapping " YES " = "Yes") ∧
      (strLower (strTrim " YES ") ∈ noSet → strLower (strTrim " YES ") ∉ yesSet →
        normalizeMapping " YES " = "No") ∧
      (strLower (strTrim " YES ") ∉ yesSet → strLower (strTrim " YES ") ∉ noSet →
        normalizeMapping " YES " = strTrim " YES ") :=
  mapping_normalization trivialParsers
    ⟨["Fund Name", "Mapping from Mutual Fund?"],
     [[Cell.str "Putnam G", Cell.str " YES "]]⟩
    ⟨["Fund Name", "Mapping from Mutual Fund?"],
     [[Cell.str "Putnam G", Cell.str "Yes"]]⟩
    0 1 [Cell.str "Putnam G", Cell.str " YES "] " YES "
    (by rfl) (by rfl) (by rfl) (by rfl)

/-! ## C7 — upcoming-funding invariants -/

theorem upcomingFunding_ok {today : ℤ} {t : Table} {u : UpcomingFunding}
    (h : upcomingFunding today t = Except.ok (some u)) :
    ∃ i, colIdx t.cols "Estimated Funding Date" = some i ∧
      ((t.rows.filter (isFutureRow today t.cols) = [] ∧ u = zeroUpcoming) ∨
       (t.rows.filter (isFutureRow today t.cols) ≠ [] ∧
        ∃ j, colIdx t.cols "Estimated Funding Amount" = some j ∧
          u = ⟨(t.rows.filter (isFutureRow today t.cols)).length,
               ((t.rows.filter (isFutureRow today t.cols)).filter
                 (isNext30Row today t.cols)).length,
               sumAmounts t.cols (t.rows.filter (isFutureRow today t.cols)),
               sumAmounts t.cols ((t.rows.filter (isFutureRow today t.cols)).filter
                 (isNext30Row today t.cols)),
               groupByDay t.cols (t.rows.filter (isFutureRow today t.cols))⟩)) := by
  unfold upcomingFunding at h
  cases hI : colIdx t.cols "Estimated Funding Date" with
  | none => rw [hI] at h; exact Option.noConfusion (Except.ok.inj h)
  | some i =>
    rw [hI] at h
    refine ⟨i, rfl, ?_⟩
    by_cases hf : (t.rows.filter (isFutureRow today t.cols)).isEmpty
    · rw [if_pos hf] at h
      exact Or.inl ⟨List.isEmpty_iff.mp hf, (Option.some.inj (Except.ok.inj h)).symm⟩
    · rw [if_neg hf] at h
      cases hJ : colIdx t.cols "Estimated Funding Amount" with
      | none => rw [hJ] at h; exact Except.noConfusion h
      | some j =>
        rw [hJ] at h
        exact Or.inr ⟨fun hnil => hf (by rw [hnil]; rfl), j, rfl,
          (Option.some.inj (Except.ok.inj h)).symm⟩

/-- Appending a row whose funding-date cell is null leaves the
upcoming-funding computation unchanged. -/
theorem upcomingFunding_append_null {today : ℤ} {cols : List String}
    {rows : List (List Cell)} {extra : List Cell}
    (hx : isFutureRow today cols extra = false) :
    upcomingFunding today ⟨cols, rows ++ [extra]⟩ = upcomingFunding today ⟨cols, rows⟩ := by
  have hf : (rows ++ [extra]).filter (isFutureRow today cols)
      = rows.filter (isFutureRow today cols) := by
    rw [List.filter_append]
    simp [List.filter, hx]
  unfold upcomingFunding
  cases hI : colIdx cols "Estimated Funding Date" with
  | none => rfl
  | some i => simp only [hf]

/-- C7: in every metrics bundle the source computes, the upcoming-funding
sub-bundle has `next_30days_count ≤ total_count`; both are 0 when no row is
a future-funding row (non-null date on or after today); and rows with a null
funding date are excluded from every upcoming-funding aggregate — appending
such a row changes nothing. -/
theorem upcoming_funding_invariants (today : ℤ) (t : Table) (m : Metrics)
    (u : UpcomingFunding)
    (h : metricsUpToDimensions today t = Except.ok m)
    (hu : m.upcoming_funding = some u) :
    u.next_30days_count ≤ u.total_count ∧
    ((∀ r ∈ t.rows, isFutureRow today t.cols r = false) →
      u.total_count = 0 ∧ u.next_30days_count = 0) ∧
    (∀ extra : List Cell, getCell t.cols extra "Estimated Funding Date" = some Cell.null →
      ∀ m', metricsUpToDimensions today ⟨t.cols, t.rows ++ [extra]⟩ = Except.ok m' →
        m'.upcoming_funding = some u) := by
  obtain ⟨pc, sc, dc, u₀, hp, hs, hd, hup, hm⟩ := metricsUpTo_ok h
  have hu₀ : u₀ = some u := by rw [hm] at hu; exact hu
  subst hu₀
  refine ⟨?_, ?_, ?_⟩
  · rcases upcomingFunding_ok hup with ⟨i, hI, hc | hc⟩
    · rw [hc.2]
      exact Nat.le_refl 0
    · obtain ⟨-, j, hJ, hrec⟩ := hc
      rw [hrec]
      exact List.length_filter_le _ _
  · intro hall
    rcases upcomingFunding_ok hup with ⟨i, hI, hc | hc⟩
    · rw [hc.2]
      exact ⟨rfl, rfl⟩
    · exact absurd (List.filter_eq_nil.mpr fun r hr => by rw [hall r hr]; simp) hc.1
  · intro extra hextra m' h'
    have hx : isFutureRow today t.cols extra = false := by
      unfold isFutureRow
      rw [hextra]
    obtain ⟨pc', sc', dc', u', hp', hs', hd', hup', hm'⟩ := metricsUpTo_ok h'
    have : u' = some u := by
      have heq := @upcomingFunding_append_null today t.cols t.rows extra hx
      rw [heq] at hup'
      · rw [hup] at hup'
        exact Except.ok.inj hup'.symm
    rw [hm']
    exact this

/-- A concrete cleaned table (header only, funding columns present) for the
C7 witness. -/
def tblC7 : Table :=
  ⟨["Plan Name", "Request Status", "Status Detail", "Estimated Funding Date",
    "Estimated Funding Amount"], []⟩

/-- The bundle the source computes on `tblC7`. -/
def mC7 : Metrics := ⟨0, 0, [], [], [], [], 0, 0, some zeroUpcoming, none⟩

/-- C7 witness: the invariants instantiated at a concrete table whose
upcoming-funding bundle is the all-zero one. -/
theorem upcoming_funding_invariants_witness :
    zeroUpcoming.next_30days_count ≤ zeroUpcoming.total_count ∧
    ((∀ r ∈ tblC7.rows, isFutureRow 0 tblC7.cols r = false) →
      zeroUpcoming.total_count = 0 ∧ zeroUpcoming.next_30days_count = 0) ∧
    (∀ extra : List Cell, getCell tblC7.cols extra "Estimated Funding Date" = some Cell.null →
      ∀ m', metricsUpToDimensions 0 ⟨tblC7.cols, tblC7.rows ++ [extra]⟩ = Except.ok m' →
        m'.upcoming_funding = some zeroUpcoming) :=
  upcoming_funding_invariants 0 tblC7 mC7 zeroUpcoming (by rfl) (by rfl)

/-! ## C4 — nulls after Transform -/

theorem toNumericCell_shape (ps : Parsers) (x : Cell) :
    toNumericCell ps x = Cell.null ∨ ∃ q, toNumericCell ps x = Cell.num q := by
  cases x with
  | null => exact Or.inl rfl
  | num q => exact Or.inr ⟨q, rfl⟩
  | date d => exact Or.inl rfl
  | str s =>
    cases hp : ps.parseNum s with
    | none => exact Or.inl (by simp [toNumericCell, hp])
    | some q => exact Or.inr ⟨q, by simp [toNumericCell, hp]⟩

theorem amountCell_eq (ps : Parsers) (x : Cell) :
    amountCell ps x = Cell.num (cellRat (toNumericCell ps x)) := by
  rcases toNumericCell_shape ps x with hx | ⟨q, hx⟩ <;>
    simp [amountCell, hx, cellRat]

theorem stage1Fn_amount (ps : Parsers) (x : Cell) :
    stage1Fn ps "Estimated Funding Amount" x = amountCell ps x := rfl

theorem textFn_amount (x : Cell) : textFn "Estimated Funding Amount" x = x := rfl

theorem fillCell_num (d : Dtype) (q : ℚ) : fillCell d (Cell.num q) = Cell.num q := rfl

theorem fillCell_datetime (y : Cell) : fillCell Dtype.datetime y = y := by
  cases y <;> rfl

theorem fillCell_numeric_ne_null (y : Cell) :
    fillCell Dtype.numeric y ≠ Cell.null := by
  cases y <;> simp [fillCell]

theorem fillCell_object_ne_null (y : Cell) :
    fillCell Dtype.object y ≠ Cell.null := by
  cases y <;> simp [fillCell]

theorem textFn_text {c : String} (hc : c ∈ text_cols) (x : Cell) :
    textFn c x = Cell.str (strTrim (cellAstype x)) := by
  simp [textFn, hc]

theorem textFn_not_text {c : String} (hc : c ∉ text_cols) (x : Cell) :
    textFn c x = x := by
  simp [textFn, hc]

theorem colAt_map (g : List Cell → List Cell) (rows : List (List Cell)) (i : Nat) :
    colAt (rows.map g) i = rows.map fun r => ((g r).get? i).getD Cell.null := by
  unfold colAt
  rw [List.map_map]
  rfl

theorem keptRows_sub {df : Table} {r : List Cell} (h : r ∈ keptRows df) :
    r ∈ df.rows :=
  (List.mem_filter.mp h).1

/-- C4: for every well-formed raw input, in the table Transform returns no
cell of a numeric column is null and no cell of a text (`object`) column is
null; and every funding-amount cell of a kept row becomes the number its raw
cell parses to, with nulls and unparseable text (such as "N/A") becoming 0. -/
theorem no_null_after_transform (ps : Parsers) (raw t' : Table)
    (hwf : ∀ r ∈ raw.rows, r.length = raw.cols.length)
    (h : transform_data ps raw = Except.ok t') :
    (∀ i c, t'.cols.get? i = some c →
      (colDtype (date_cols.contains c) (colAt t'.rows i) = Dtype.numeric →
        Cell.null ∉ colAt t'.rows i) ∧
      (colDtype (date_cols.contains c) (colAt t'.rows i) = Dtype.object →
        Cell.null ∉ colAt t'.rows i)) ∧
    (∀ k r i, (keptRows raw).get? k = some r →
      colIdx raw.cols "Estimated Funding Amount" = some i →
      ∃ r', t'.rows.get? k = some r' ∧
        r'.get? i = some (Cell.num (cellRat (toNumericCell ps ((r.get? i).getD Cell.null))))) := by
  constructor
  · intro i c hc
    rcases transform_ok h with ⟨-, ht⟩ | ⟨-, ht⟩
    · subst ht
      exact absurd hc (by simp)
    · subst ht
      simp only at hc ⊢
      have hd := @transDts_get?_of_col ps _ _ _ hc
      obtain ⟨hilt, -⟩ := List.get?_eq_some.mp hc
      have hcell : ∀ r ∈ keptRows raw, ∃ x, r.get? i = some x := by
        intro r hr
        have hlen : r.length = raw.cols.length := hwf r (keptRows_sub hr)
        have hlt : i < r.length := hlen ▸ hilt
        exact ⟨r.get ⟨i, hlt⟩, List.get?_eq_get hlt⟩
      by_cases htx : c ∈ text_cols
      · have hnn : Cell.null ∉ colAt ((keptRows raw).map (transRow ps raw)) i := by
          intro hmem
          rw [colAt_map] at hmem
          obtain ⟨r, hr, hEq⟩ := List.mem_map.mp hmem
          obtain ⟨x, hx⟩ := hcell r hr
          rw [transRow_get? hc hd, hx] at hEq
          simp only [Option.map_some', Option.getD_some] at hEq
          rw [textFn_text htx] at hEq
          cases hEq
        exact ⟨fun _ => hnn, fun _ => hnn⟩
      · cases hD : colDtype (date_cols.contains c) (colAt (stage1Rows ps raw) i) with
        | numeric =>
          have hnn : Cell.null ∉ colAt ((keptRows raw).map (transRow ps raw)) i := by
            intro hmem
            rw [colAt_map] at hmem
            obtain ⟨r, hr, hEq⟩ := List.mem_map.mp hmem
            obtain ⟨x, hx⟩ := hcell r hr
            rw [hD] at hd
            rw [transRow_get? hc hd, hx] at hEq
            simp only [Option.map_some', Option.getD_some] at hEq
            rw [textFn_not_text htx] at hEq
            exact fillCell_numeric_ne_null _ hEq
          exact ⟨fun _ => hnn, fun _ => hnn⟩
        | object =>
          have hnn : Cell.null ∉ colAt ((keptRows raw).map (transRow ps raw)) i := by
            intro hmem
            rw [colAt_map] at hmem
            obtain ⟨r, hr, hEq⟩ := List.mem_map.mp hmem
            obtain ⟨x, hx⟩ := hcell r hr
            rw [hD] at hd
            rw [transRow_get? hc hd, hx] at hEq
            simp only [Option.map_some', Option.getD_some] at hEq
            rw [textFn_not_text htx] at hEq
            exact fillCell_object_ne_null _ hEq
          exact ⟨fun _ => hnn, fun _ => hnn⟩
        | datetime =>
          have hcols : colAt ((keptRows raw).map (transRow ps raw)) i
              = colAt (stage1Rows ps raw) i := by
            rw [colAt_map, stage1Rows, colAt_map]
            apply List.map_congr_left
            intro r hr
            rw [hD] at hd
            rw [transRow_get? hc hd, get?_zipWith_left (stage1Fn ps) hc]
            cases hri : r.get? i with
            | none => rfl
            | some x =>
              simp only [Option.map_some', Option.getD_some]
              rw [textFn_not_text htx, fillCell_datetime]
          rw [hcols, hD]
          exact ⟨fun hne => absurd hne (by simp), fun hne => absurd hne (by simp)⟩
  · intro k r i hk hi
    rcases transform_ok h with ⟨hz, ht⟩ | ⟨-, ht⟩
    · rw [List.length_eq_zero.mp hz] at hk
      cases hk
    · subst ht
      have hrmem : r ∈ keptRows raw := List.get?_mem hk
      have hlen : r.length = raw.cols.length := hwf r (keptRows_sub hrmem)
      have hc := colIdx_get? hi
      obtain ⟨hilt, -⟩ := List.get?_eq_some.mp hc
      have hlt : i < r.length := hlen ▸ hilt
      have hx : r.get? i = some (r.get ⟨i, hlt⟩) := List.get?_eq_get hlt
      have hd := @transDts_get? ps _ _ _ hi
      refine ⟨transRow ps raw r, ?_, ?_⟩
      · simp only [List.get?_map, hk, Option.map_some']
      · rw [transRow_get? hc hd, hx]
        simp only [Option.map_some', Option.getD_some, stage1Fn_amount, amountCell_eq,
          fillCell_num, textFn_amount]

/-- C4 witness: a concrete two-column table whose kept row carries the
amount text "N/A"; after Transform the cell equals 0 and no numeric or text
column holds a null. -/
theorem no_null_after_transform_witness :
    (∀ i c, (Table.mk ["Fund Name", "Estimated Funding Amount"]
        [[Cell.str "Putnam G", Cell.num 0]]).cols.get? i = some c →
      (colDtype (date_cols.contains c)
          (colAt (Table.mk ["Fund Name", "Estimated Funding Amount"]
            [[Cell.str "Putnam G", Cell.num 0]]).rows i) = Dtype.numeric →
        Cell.null ∉ colAt (Table.mk ["Fund Name", "Estimated Funding Amount"]
            [[Cell.str "Putnam G", Cell.num 0]]).rows i) ∧
      (colDtype (date_cols.contains c)
          (colAt (Table.mk ["Fund Name", "Estimated Funding Amount"]
            [[Cell.str "Putnam G", Cell.num 0]]).rows i) = Dtype.object →
        Cell.null ∉ colAt (Table.mk ["Fund Name", "Estimated Funding Amount"]
            [[Cell.str "Putnam G", Cell.num 0]]).rows i)) ∧
    (∀ k r i, (keptRows ⟨["Fund Name", "Estimated Funding Amount"],
        [[Cell.str "Putnam G", Cell.str "N/A"]]⟩).get? k = some r →
      colIdx ["Fund Name", "Estimated Funding Amount"] "Estimated Funding Amount" = some i →
      ∃ r', (Table.mk ["Fund Name", "Estimated Funding Amount"]
          [[Cell.str "Putnam G", Cell.num 0]]).rows.get? k = some r' ∧
        r'.get? i = some (Cell.num (cellRat (toNumericCell trivialParsers
          ((r.get? i).getD Cell.null))))) :=
  no_null_after_transform trivialParsers
    ⟨["Fund Name", "Estimated Funding Amount"], [[Cell.str "Putnam G", Cell.str "N/A"]]⟩
    ⟨["Fund Name", "Estimated Funding Amount"], [[Cell.str "Putnam G", Cell.num 0]]⟩
    (by decide) (by rfl)

/-! ## C2 — the spec-modelled per-dimension breakdown -/

theorem perm_insertBy {α : Type} (le : α → α → Bool) (x : α) (l : List α) :
    List.Perm (insertBy le x l) (x :: l) := by
  induction l with
  | nil => exact List.Perm.refl _
  | cons y ys ih =>
    unfold insertBy
    by_cases h : le x y = true
    · rw [if_pos h]
    · rw [if_neg h]
      exact (List.Perm.cons y ih).trans (List.Perm.swap x y ys)

theorem sortBy_perm {α : Type} (le : α → α → Bool) (l : List α) :
    List.Perm (sortBy le l) l := by
  induction l with
  | nil => exact List.Perm.refl _
  | cons x xs ih =>
    exact (perm_insertBy le x (sortBy le xs)).trans (List.Perm.cons x ih)

theorem pairwise_insertBy {α : Type} {le : α → α → Bool}
    (htot : ∀ a b, le a b = true ∨ le b a = true)
    (htrans : ∀ a b c, le a b = true → le b c = true → le a c = true)
    {x : α} {l : List α} (h : List.Pairwise (fun a b => le a b = true) l) :
    List.Pairwise (fun a b => le a b = true) (insertBy le x l) := by
  induction l with
  | nil => simp [insertBy]
  | cons y ys ih =>
    rcases List.pairwise_cons.mp h with ⟨hy, hys⟩
    unfold insertBy
    by_cases hxy : le x y = true
    · rw [if_pos hxy]
      refine List.pairwise_cons.mpr ⟨?_, h⟩
      intro z hz
      rcases List.mem_cons.mp hz with rfl | hz'
      · exact hxy
      · exact htrans x y z hxy (hy z hz')
    · rw [if_neg hxy]
      refine List.pairwise_cons.mpr ⟨?_, ih hys⟩
      intro z hz
      have hz' := (perm_insertBy le x ys).mem_iff.mp hz
      rcases List.mem_cons.mp hz' with rfl | hz''
      · rcases htot z y with h1 | h2
        · exact absurd h1 hxy
        · exact h2
      · exact hy z hz''

theorem sortBy_pairwise {α : Type} {le : α → α → Bool}
    (htot : ∀ a b, le a b = true ∨ le b a = true)
    (htrans : ∀ a b c, le a b = true → le b c = true → le a c = true)
    (l : List α) :
    List.Pairwise (fun a b => le a b = true) (sortBy le l) := by
  induction l with
  | nil => exact List.Pairwise.nil
  | cons x xs ih => exact pairwise_insertBy htot htrans ih

/-- The descending-by-total comparison is total. -/
theorem totalLe_tot (a b : Cell × Nat) :
    decide (b.2 ≤ a.2) = true ∨ decide (a.2 ≤ b.2) = true := by
  rcases Nat.le_total b.2 a.2 with h | h
  · exact Or.inl (decide_eq_true h)
  · exact Or.inr (decide_eq_true h)

/-- The descending-by-total comparison is transitive. -/
theorem totalLe_trans (a b c : Cell × Nat)
    (h1 : decide (b.2 ≤ a.2) = true) (h2 : decide (c.2 ≤ b.2) = true) :
    decide (c.2 ≤ a.2) = true :=
  decide_eq_true (Nat.le_trans (of_decide_eq_true h2) (of_decide_eq_true h1))

/-- C2: the (spec-modelled) `by_dimension` entry maps each of the three
dimensions (advisor firm, recordkeeper, NSCC firm) to a nested mapping from
dimension-value to status-value to row count plus a per-dimension-value
total, restricted to at most 10 dimension-values: each listed total is the
value's row count, each inner count is the rows with that value and status,
and every dimension-value left out has a total no larger than any kept one
(the tie-break among equal totals being first-encountered order, by the
stability of the sort in the model). -/
theorem by_dimension_contract (t : Table) :
    (byDimension t).map Prod.fst = dimensions ∧
    ∀ d entry, (d, entry) ∈ byDimension t →
      entry.length ≤ 10 ∧
      (∀ v scounts tot, (v, (scounts, tot)) ∈ entry →
        tot = dimValueTotal t d v ∧
        ∀ s n, (s, n) ∈ scounts → n = dimStatusCount t d v s) ∧
      (∀ w ∈ dedupFirst [] (nonNull ((colCells t d).getD [])),
        w ∉ entry.map Prod.fst →
        ∀ p ∈ entry, dimValueTotal t d w ≤ p.2.2) := by
  constructor
  · rfl
  · intro d entry hmem
    obtain ⟨d₀, hd₀, hEq⟩ := List.mem_map.mp hmem
    cases hEq
    refine ⟨?_, ?_, ?_⟩
    · simp only [statusByDimension, List.length_map, List.length_take]
      exact Nat.min_le_left _ _
    · intro v scounts tot hv
      simp only [statusByDimension] at hv
      obtain ⟨p, hp, hpEq⟩ := List.mem_map.mp hv
      cases hpEq
      have hpt : p ∈ (dedupFirst [] (nonNull ((colCells t d).getD []))).map
          fun v => (v, dimValueTotal t d v) :=
        (sortBy_perm _ _).mem_iff.mp (List.take_subset _ _ hp)
      obtain ⟨v₀, hv₀, hpv⟩ := List.mem_map.mp hpt
      refine ⟨?_, ?_⟩
      · rw [← hpv]
      · intro s n hs
        obtain ⟨s₀, hs₀, hsEq⟩ := List.mem_map.mp hs
        cases hsEq
        rfl
    · intro w hw hwnot p hp
      simp only [statusByDimension] at hp hwnot
      have hwt : (w, dimValueTotal t d w) ∈ (dedupFirst []
          (nonNull ((colCells t d).getD []))).map fun v => (v, dimValueTotal t d v) :=
        List.mem_map_of_mem _ hw
      have hsortmem : (w, dimValueTotal t d w) ∈ sortBy
          (fun a b : Cell × Nat => decide (b.2 ≤ a.2))
          ((dedupFirst [] (nonNull ((colCells t d).getD []))).map
            fun v => (v, dimValueTotal t d v)) :=
        (sortBy_perm _ _).mem_iff.mpr hwt
      have hsorted : List.Pairwise
          (fun a b : Cell × Nat => decide (b.2 ≤ a.2) = true)
          (sortBy (fun a b : Cell × Nat => decide (b.2 ≤ a.2))
            ((dedupFirst [] (nonNull ((colCells t d).getD []))).map
              fun v => (v, dimValueTotal t d v))) :=
        sortBy_pairwise totalLe_tot totalLe_trans _
      have hsplit := List.take_append_drop 10
        (sortBy (fun a b : Cell × Nat => decide (b.2 ≤ a.2))
          ((dedupFirst [] (nonNull ((colCells t d).getD []))).map
            fun v => (v, dimValueTotal t d v)))
      rcases List.mem_append.mp (by rw [hsplit]; exact hsortmem) with hin | hin
      · exact absurd (List.mem_map_of_mem Prod.fst (List.mem_map_of_mem _ hin)) hwnot
      · obtain ⟨q, hq, hqEq⟩ := List.mem_map.mp hp
        have hpair := (List.pairwise_append.mp (by rw [hsplit]; exact hsorted)).2.2
          q hq (w, dimValueTotal t d w) hin
        rw [← hqEq]
        exact of_decide_eq_true hpair

/-- A concrete cleaned table for the C2 witness. -/
def tblC2 : Table :=
  ⟨["Request Status", "Advisor Firm Name"], [[Cell.str "Open", Cell.str "Firm A"]]⟩

/-- C2 witness: the contract instantiated on a concrete table — the listed
total and status count for the advisor-firm value "Firm A" agree with the
row counts. -/
theorem by_dimension_contract_witness :
    (byDimension tblC2).map Prod.fst = dimensions ∧
    (1 = dimValueTotal tblC2 "Advisor Firm Name" (Cell.str "Firm A") ∧
      ∀ s n, (s, n) ∈ [(Cell.str "Open", 1)] →
        n = dimStatusCount tblC2 "Advisor Firm Name" (Cell.str "Firm A") s) :=
  ⟨(by_dimension_contract tblC2).1,
   ((by_dimension_contract tblC2).2 "Advisor Firm Name"
       [(Cell.str "Firm A", ([(Cell.str "Open", 1)], 1))] (by decide)).2.1
     (Cell.str "Firm A") [(Cell.str "Open", 1)] 1 (by decide)⟩

end PutnamETL
